import Mathlib

/-!
Verification of the storefront page component: data model, cart operations,
the filtered and sorted product list deriver, the catalog fetch with its
fallback, and the cart persistence effects. Prices and rating rates are
modelled as exact rationals; JavaScript arrays become Lean lists and the
stable Array.sort of the source becomes List.mergeSort, which is stable.
-/

namespace Storefront

/-- Rating attached to a product: a rate and a review count. -/
structure Rating where
  rate : ℚ
  count : ℚ
  deriving DecidableEq, Repr

/-- Product record of the source: identifier, title, description, price and
the optional image, category and rating fields. -/
structure Product where
  id : String
  title : String
  description : String
  price : ℚ
  image : Option String
  category : Option String
  rating : Option Rating
  deriving DecidableEq, Repr

/-- CartItem pairs a product with a quantity. -/
structure CartItem where
  product : Product
  quantity : Int
  deriving DecidableEq, Repr

/-- The fixed sample catalog used as fallback when the API fetch fails. -/
def SAMPLE_PRODUCTS : List Product :=
  [ { id := "p1",
      title := "Minimal Leather Wallet",
      description := "Handcrafted full-grain leather wallet with RFID protection.",
      price := 49.0,
      category := some "Accessories",
      image := some "/products/wallet.jpg",
      rating := some { rate := 4.6, count := 132 } },
    { id := "p2",
      title := "Cotton Crew T-Shirt",
      description := "Soft, breathable cotton tee with modern fit.",
      price := 19.99,
      category := some "Clothing",
      image := some "/products/tshirt.jpg",
      rating := some { rate := 4.3, count := 210 } },
    { id := "p3",
      title := "Wireless Headphones",
      description := "Noise-cancelling over-ear headphones with 30h battery.",
      price := 129.0,
      category := some "Electronics",
      image := some "/products/headphones.jpg",
      rating := some { rate := 4.7, count := 540 } },
    { id := "p4",
      title := "Ceramic Coffee Mug",
      description := "350ml mug, dishwasher safe with matte finish.",
      price := 12.5,
      category := some "Home",
      image := some "/products/mug.jpg",
      rating := some { rate := 4.5, count := 88 } } ]

/-- Helper for handleAddToCart: the source locates the first index whose
product identifier matches and replaces that entry with a copy whose
quantity is increased by qty; entries before and after stay as they are. -/
def addQtyToFirst (pid : String) (qty : Int) : List CartItem → List CartItem
  | [] => []
  | it :: rest =>
    if it.product.id == pid then { it with quantity := it.quantity + qty } :: rest
    else it :: addQtyToFirst pid qty rest

/-- Cart add operation: when an item with the same product identifier exists,
its quantity grows by qty, otherwise a new item is appended at the end. -/
def handleAddToCart (prev : List CartItem) (product : Product) (qty : Int) : List CartItem :=
  if prev.any (fun it => it.product.id == product.id) then
    addQtyToFirst product.id qty prev
  else
    prev ++ [{ product := product, quantity := qty }]

/-- Cart quantity update: the matching item receives the new quantity, then
every item whose quantity is not positive is dropped. -/
def handleUpdateQty (prev : List CartItem) (productId : String) (quantity : Int) : List CartItem :=
  (prev.map (fun it => if it.product.id == productId then { it with quantity := quantity } else it)).filter
    (fun it => decide (0 < it.quantity))

/-- Cart removal: drops the item with the given product identifier. -/
def handleRemove (prev : List CartItem) (productId : String) : List CartItem :=
  prev.filter (fun it => !(it.product.id == productId))

/-- Cart clear: the empty cart. -/
def handleClearCart : List CartItem := []

/-- Subtotal shown in the cart drawer: left fold accumulating price times
quantity over the items, starting from zero. -/
def subtotal (cart : List CartItem) : ℚ :=
  cart.foldl (fun sum it => sum + it.product.price * (it.quantity : ℚ)) 0

/-- The product identifiers of a cart, in order. -/
def cartIds (cart : List CartItem) : List String :=
  cart.map (fun it => it.product.id)

/-- The items of a cart carrying the given product identifier. -/
def itemsFor (cart : List CartItem) (pid : String) : List CartItem :=
  cart.filter (fun it => it.product.id == pid)

/-- Total quantity held for one product identifier. -/
def qtySum (cart : List CartItem) (pid : String) : Int :=
  ((itemsFor cart pid).map (fun it => it.quantity)).sum

/-- Concrete product builder used by the closed witness statements. -/
def demoProduct (idStr titleStr : String) (priceVal : ℚ) : Product :=
  { id := idStr,
    title := titleStr,
    description := "",
    price := priceVal,
    image := none,
    category := none,
    rating := none }

/-- Cart states reachable in the page component: the cart starts empty
(creation, or hydration that finds the slot absent or unparsable), and is
then transformed by the four cart handlers. Hydration of a slot the
component itself persisted restores a cart that was reachable when it was
written, so it introduces no further states. -/
inductive Reachable : List CartItem → Prop
  | init : Reachable []
  | add (c : List CartItem) (p : Product) (q : Int) :
      Reachable c → Reachable (handleAddToCart c p q)
  | update (c : List CartItem) (pid : String) (q : Int) :
      Reachable c → Reachable (handleUpdateQty c pid q)
  | remove (c : List CartItem) (pid : String) :
      Reachable c → Reachable (handleRemove c pid)
  | clear (c : List CartItem) :
      Reachable c → Reachable handleClearCart

/-- Substring test on character lists, mirroring the JavaScript includes
method: true exactly when the needle occurs contiguously in the haystack
(and always true for the empty needle). -/
def containsSub (needle : List Char) : List Char → Bool
  | [] => needle.isEmpty
  | c :: rest => needle.isPrefixOf (c :: rest) || containsSub needle rest

/-- String form of the JavaScript includes test. -/
def strIncludes (s sub : String) : Bool :=
  containsSub sub.data s.data

/-- Models the JavaScript trim method: drops leading and trailing
whitespace characters. -/
def jsTrim (s : String) : String :=
  String.mk ((s.data.dropWhile Char.isWhitespace).reverse.dropWhile Char.isWhitespace).reverse

/-- Models the JavaScript toLowerCase method as a character-wise lowering. -/
def jsToLower (s : String) : String :=
  String.mk (s.data.map Char.toLower)

/-- The four sort keys offered by the sort selector of the page. -/
inductive SortKey where
  | featured
  | priceAsc
  | priceDesc
  | rating
  deriving DecidableEq, Repr

/-- The rate read through the optional chain in the rating comparator of
the source: the rate of the rating when present, zero otherwise. -/
def ratingRate (p : Product) : ℚ :=
  match p.rating with
  | some r => r.rate
  | none => 0

/-- The filtering stage of visibleProducts: when the trimmed search text is
non-empty, keep products whose lowercased title or description contains the
lowercased (untrimmed) search text; when the category selector differs from
the distinguished All value, keep products whose category equals it. -/
def filteredProducts (products : List Product) (search category : String) : List Product :=
  let list := products
  let list :=
    if jsTrim search ≠ "" then
      let q := jsToLower search
      list.filter (fun p =>
        strIncludes (jsToLower p.title) q || strIncludes (jsToLower p.description) q)
    else list
  let list :=
    if category ≠ "All" then list.filter (fun p => p.category == some category) else list
  list

/-- The derived visible product list: the filtering stage followed by the
sort stage. The source sorts with Array.sort, which is a stable sort by the
given comparator; each numeric comparator induces the boolean order used
here (le a b holds exactly when the comparator applied to a and b is at
most zero), and the stable sort for such an order is modelled by
List.mergeSort. The featured key leaves the filtered order untouched. -/
def visibleProducts (products : List Product) (search category : String)
    (sortBy : SortKey) : List Product :=
  let list := filteredProducts products search category
  match sortBy with
  | SortKey.featured => list
  | SortKey.priceAsc => list.mergeSort (fun a b => decide (a.price ≤ b.price))
  | SortKey.priceDesc => list.mergeSort (fun a b => decide (b.price ≤ a.price))
  | SortKey.rating => list.mergeSort (fun a b => decide (ratingRate b ≤ ratingRate a))

/-- JSON values, the shapes a parsed response body can take. -/
inductive Json where
  | null
  | bool (b : Bool)
  | num (q : ℚ)
  | str (s : String)
  | arr (elems : List Json)
  | obj (fields : List (String × Json))

/-- Property read combined with the null-coalescing step of the source: a
field of an object is returned unless it is null (the coalescing operator
treats null like a missing field); property access on a non-object
primitive or on an array yields no value. Access on a null receiver is the
one throwing case and is handled separately in coerceRecord. -/
def jsField (j : Json) (name : String) : Option Json :=
  match j with
  | Json.obj fields =>
    match fields.lookup name with
    | some Json.null => none
    | some v => some v
    | none => none
  | _ => none

/-- Models the JavaScript String() conversion. Array stringification and
number formatting are abbreviated: the claims only apply String() to
string values and to the generated fallback identifier. -/
def jsToString : Json → String
  | Json.null => "null"
  | Json.bool true => "true"
  | Json.bool false => "false"
  | Json.num q => if q.den = 1 then toString q.num else toString q.num ++ "/" ++ toString q.den
  | Json.str s => s
  | Json.arr _ => ""
  | Json.obj _ => "[object Object]"

/-- Models the JavaScript Number() conversion on JSON values. String
parsing and the NaN results are not representable in the rational model;
the claims only apply Number() to numeric values and to the literal zero
default. -/
def jsToNumber : Json → ℚ
  | Json.num q => q
  | Json.bool true => 1
  | Json.bool false => 0
  | Json.null => 0
  | Json.str _ => 0
  | Json.arr _ => 0
  | Json.obj _ => 0

/-- The source stores the rating value untyped; a well-formed rating object
is read into the Rating structure and any other value behaves like an
absent rating, matching the optional-chained access that reads its rate as
zero in the rating sort. -/
def jsonToRating (j : Json) : Option Rating :=
  match jsField j "rate", jsField j "count" with
  | some (Json.num r), some (Json.num c) => some { rate := r, count := c }
  | _, _ => none

/-- Per-record coercion of the fetch: each field falls back through the
null-coalescing chain of the source to its default. Reading a property of
a null element throws a TypeError in JavaScript, modelled by the error
branch; fresh stands for the random fallback identifier generated for the
record. -/
def coerceRecord (fresh : String) (p : Json) : Except Unit Product :=
  match p with
  | Json.null => Except.error ()
  | _ =>
    Except.ok
      { id := jsToString ((((jsField p "id").orElse (fun _ => jsField p "_id")).orElse
          (fun _ => jsField p "slug")).getD (Json.str fresh)),
        title := jsToString (((jsField p "title").orElse
          (fun _ => jsField p "name")).getD (Json.str "Untitled product")),
        description := jsToString ((jsField p "description").getD (Json.str "")),
        price := jsToNumber ((jsField p "price").getD (Json.num 0)),
        category := some (jsToString ((jsField p "category").getD (Json.str "Uncategorized"))),
        image := some (jsToString (((jsField p "image").orElse
          (fun _ => jsField p "imageUrl")).getD (Json.str ""))),
        rating := (jsField p "rating").bind jsonToRating }

/-- The map over the records of an array response: the first throwing
coercion aborts the whole map, as the exception propagates to the
surrounding try block. The index feeds the per-record fresh identifier
supply. -/
def coerceAll (fresh : ℕ → String) : ℕ → List Json → Except Unit (List Product)
  | _, [] => Except.ok []
  | i, p :: rest =>
    match coerceRecord (fresh i) p with
    | Except.error e => Except.error e
    | Except.ok prod =>
      match coerceAll fresh (i + 1) rest with
      | Except.error e => Except.error e
      | Except.ok rest2 => Except.ok (prod :: rest2)

/-- Outcome of the network fetch: the request itself may fail, or a
response arrives with an ok flag and a body whose JSON parse may throw. -/
inductive FetchOutcome where
  | networkError
  | response (ok : Bool) (body : Except Unit Json)

/-- The catalog fetch: every failure path of the try block — network error,
non-ok status, unparsable body, non-array body, or a throwing record
coercion — lands in the catch branch and yields the sample catalog; an
array body whose records all coerce yields the coerced records. The fresh
argument supplies the random fallback identifiers. -/
def fetchProductsFromApi (fresh : ℕ → String) (outcome : FetchOutcome) : List Product :=
  match outcome with
  | FetchOutcome.networkError => SAMPLE_PRODUCTS
  | FetchOutcome.response ok body =>
    if !ok then SAMPLE_PRODUCTS
    else
      match body with
      | Except.error _ => SAMPLE_PRODUCTS
      | Except.ok (Json.arr records) =>
        match coerceAll fresh 0 records with
        | Except.ok products => products
        | Except.error _ => SAMPLE_PRODUCTS
      | Except.ok _ => SAMPLE_PRODUCTS

/-- Models the cart hydration effect run at mount: the storage read and the
JSON parse are environment calls that may throw, so they enter the model
as an Except-valued slot and parse function; a thrown error is caught and
leaves the cart in its initial empty state, as does an absent or empty
slot. -/
def hydrateCart (getItem : Except Unit (Option String))
    (parse : String → Except Unit (List CartItem)) : List CartItem :=
  match getItem with
  | Except.error _ => []
  | Except.ok none => []
  | Except.ok (some raw) =>
    if raw = "" then []
    else
      match parse raw with
      | Except.error _ => []
      | Except.ok cart => cart

/-- Session state for the persistence mirror: the in-memory cart and the
storage slot, the slot modelled at the value level as the cart whose
serialization it holds. -/
structure CartSession where
  cart : List CartItem
  stored : Option (List CartItem)

/-- Models the persistence effect run after every cart mutation: the write
may fail (quota exceeded, storage disabled), the failure is caught and
ignored, and the in-memory cart is never touched. -/
def persistAfterMutation (writeOk : Bool) (s : CartSession) : CartSession :=
  { cart := s.cart, stored := if writeOk then some s.cart else s.stored }

/-! Helper lemmas about the cart operations. -/

theorem cartIds_addQtyToFirst (pid : String) (qty : Int) (l : List CartItem) :
    cartIds (addQtyToFirst pid qty l) = cartIds l := by
  induction l with
  | nil => rfl
  | cons it rest ih =>
    by_cases hid : (it.product.id == pid) = true
    · simp [addQtyToFirst, hid, cartIds]
    · simp only [addQtyToFirst, hid, if_false, Bool.false_eq_true]
      simp [cartIds] at ih ⊢
      exact ih

theorem qtySum_cons (it : CartItem) (rest : List CartItem) (pid : String) :
    qtySum (it :: rest) pid =
      (if it.product.id == pid then it.quantity else 0) + qtySum rest pid := by
  by_cases hid : (it.product.id == pid) = true
  · simp [qtySum, itemsFor, List.filter_cons, hid]
  · simp [qtySum, itemsFor, List.filter_cons, hid]

theorem qtySum_append (l₁ l₂ : List CartItem) (pid : String) :
    qtySum (l₁ ++ l₂) pid = qtySum l₁ pid + qtySum l₂ pid := by
  simp [qtySum, itemsFor, List.filter_append]

theorem qtySum_addQtyToFirst (pid : String) (qty : Int) (l : List CartItem)
    (h : l.any (fun it => it.product.id == pid) = true) :
    qtySum (addQtyToFirst pid qty l) pid = qtySum l pid + qty := by
  induction l with
  | nil => simp at h
  | cons it rest ih =>
    by_cases hid : (it.product.id == pid) = true
    · simp only [addQtyToFirst, hid, if_true]
      rw [qtySum_cons, qtySum_cons]
      simp [hid]
      ring
    · have h2 : rest.any (fun it => it.product.id == pid) = true := by
        simpa [List.any_cons, hid] using h
      simp only [addQtyToFirst, hid, if_false, Bool.false_eq_true]
      rw [qtySum_cons, qtySum_cons, ih h2]
      ring

theorem addQtyToFirst_append_of_fresh (pid : String) (qty : Int)
    (l₁ l₂ : List CartItem) (h : ∀ it ∈ l₁, ¬((it.product.id == pid) = true)) :
    addQtyToFirst pid qty (l₁ ++ l₂) = l₁ ++ addQtyToFirst pid qty l₂ := by
  induction l₁ with
  | nil => rfl
  | cons it rest ih =>
    have hid := h it (by simp)
    have ih2 := ih (fun x hx => h x (by simp [hx]))
    simp only [List.cons_append, addQtyToFirst, hid, if_false, Bool.false_eq_true]
    rw [show rest.append l₂ = rest ++ l₂ from rfl, ih2]

theorem itemsFor_eq_nil (l : List CartItem) (pid : String)
    (h : ∀ it ∈ l, it.product.id ≠ pid) : itemsFor l pid = [] := by
  simp only [itemsFor, List.filter_eq_nil_iff]
  intro it hit
  simpa using h it hit

/-! Claims about the cart operations. -/

/-- C1 counterexample: on the cart holding a product priced 19.99 at
quantity 2 and a product priced 49.00 at quantity 1, the subtotal fold
does not return 87.98; the sum 19.99 times 2 plus 49.00 times 1 is
88.98. -/
theorem claim_C1_counterexample :
    ¬ subtotal
        [ { product := demoProduct "p2" "Cotton Crew T-Shirt" 19.99, quantity := 2 },
          { product := demoProduct "p1" "Minimal Leather Wallet" 49, quantity := 1 } ]
      = 87.98 := by
  norm_num [subtotal, demoProduct]

/-- C1 amended: for a cart holding a product priced 19.99 at quantity 2 and
a product priced 49.00 at quantity 1, the subtotal fold of the cart drawer
returns exactly 88.98, the sum over items of price times quantity. -/
theorem claim_C1 (p1 p2 : Product) (h1 : p1.price = 19.99) (h2 : p2.price = 49) :
    subtotal [{ product := p1, quantity := 2 }, { product := p2, quantity := 1 }] = 88.98 := by
  norm_num [subtotal, h1, h2]

/-- Witness for C1 at two concrete products carrying the stated prices. -/
theorem claim_C1_witness :
    subtotal
      [ { product := demoProduct "p2" "Cotton Crew T-Shirt" 19.99, quantity := 2 },
        { product := demoProduct "p1" "Minimal Leather Wallet" 49, quantity := 1 } ]
      = 88.98 :=
  claim_C1 _ _ rfl rfl

/-- C5: adding a product already in the cart raises the total quantity held
for its identifier by the added amount and appends nothing (the identifier
list is unchanged); adding a product not in the cart appends a single new
item with the given quantity; in particular adding P with quantity 1 and
then with quantity 2 to a cart without P yields exactly one item for P, of
quantity 3. The handler is a total function, so duplicate adds never
throw. -/
theorem claim_C5 (cart : List CartItem) (P : Product) (q : Int)
    (hfresh : ∀ it ∈ cart, it.product.id ≠ P.id) :
    handleAddToCart cart P q = cart ++ [{ product := P, quantity := q }] ∧
    (∀ c : List CartItem, qtySum (handleAddToCart c P q) P.id = qtySum c P.id + q) ∧
    (∀ c : List CartItem, (∃ it ∈ c, it.product.id = P.id) →
      cartIds (handleAddToCart c P q) = cartIds c) ∧
    itemsFor (handleAddToCart (handleAddToCart cart P 1) P 2) P.id =
      [{ product := P, quantity := 3 }] := by
  have hanyf : cart.any (fun it => it.product.id == P.id) = false := by
    simp only [List.any_eq_false, beq_iff_eq]
    exact hfresh
  have hfirst : ∀ q' : Int,
      handleAddToCart cart P q' = cart ++ [{ product := P, quantity := q' }] := by
    intro q'
    simp [handleAddToCart, hanyf]
  refine ⟨hfirst q, ?_, ?_, ?_⟩
  · intro c
    by_cases hany : c.any (fun it => it.product.id == P.id) = true
    · simp only [handleAddToCart, hany, if_true]
      exact qtySum_addQtyToFirst P.id q c hany
    · have hf : c.any (fun it => it.product.id == P.id) = false := by
        simpa using hany
      simp only [handleAddToCart, hf, Bool.false_eq_true, if_false]
      rw [qtySum_append]
      simp [qtySum, itemsFor]
  · intro c hex
    have hany : c.any (fun it => it.product.id == P.id) = true := by
      simp only [List.any_eq_true, beq_iff_eq]
      exact hex
    simp only [handleAddToCart, hany, if_true]
    exact cartIds_addQtyToFirst P.id q c
  · rw [hfirst 1]
    have hany2 : (cart ++ [({ product := P, quantity := 1 } : CartItem)]).any
        (fun it => it.product.id == P.id) = true := by
      simp [List.any_append]
    simp only [handleAddToCart, hany2, if_true]
    rw [addQtyToFirst_append_of_fresh P.id 2 cart _
        (by intro it hit; simpa using hfresh it hit)]
    simp only [addQtyToFirst, beq_self_eq_true, if_true]
    rw [show (({ product := P, quantity := 1 } : CartItem).quantity + 2) = 3 by rfl]
    simp only [itemsFor, List.filter_append]
    rw [show (cart.filter (fun it => it.product.id == P.id)) = [] from
      itemsFor_eq_nil cart P.id hfresh]
    simp

/-- Witness for C5 at the empty cart and a concrete product. -/
theorem claim_C5_witness :
    handleAddToCart [] (demoProduct "w" "W" 5) 4 =
      [{ product := demoProduct "w" "W" 5, quantity := 4 }] ∧
    itemsFor
      (handleAddToCart (handleAddToCart [] (demoProduct "w" "W" 5) 1)
        (demoProduct "w" "W" 5) 2) (demoProduct "w" "W" 5).id =
      [{ product := demoProduct "w" "W" 5, quantity := 3 }] := by
  have h := claim_C5 [] (demoProduct "w" "W" 5) 4 (by simp)
  exact ⟨h.1, h.2.2.2⟩

/-- C6: on a cart whose items all carry positive quantity, updating the
quantity for an identifier to a positive value rewrites just that item,
updating it to zero or below removes exactly the matching item (the result
holds no item for that identifier), and the cart is unchanged when no item
matches. -/
theorem claim_C6 (cart : List CartItem) (pid : String) (q : Int)
    (hpos : ∀ it ∈ cart, 0 < it.quantity) :
    (0 < q → handleUpdateQty cart pid q =
      cart.map (fun it => if it.product.id == pid then { it with quantity := q } else it)) ∧
    (q ≤ 0 → handleUpdateQty cart pid q = cart.filter (fun it => !(it.product.id == pid))) ∧
    (q ≤ 0 → itemsFor (handleUpdateQty cart pid q) pid = []) ∧
    ((∀ it ∈ cart, it.product.id ≠ pid) → handleUpdateQty cart pid q = cart) := by
  have hneg : ∀ hq : q ≤ 0,
      handleUpdateQty cart pid q = cart.filter (fun it => !(it.product.id == pid)) := by
    intro hq
    induction cart with
    | nil => rfl
    | cons it rest ih =>
      have hpt := hpos it (by simp)
      have ihr := ih (fun x hx => hpos x (by simp [hx]))
      by_cases hid : (it.product.id == pid) = true
      · simp only [handleUpdateQty, List.map_cons, hid, if_true, List.filter_cons]
        have : ¬(0 < q) := by omega
        simpa [handleUpdateQty, this, hid] using ihr
      · simp only [handleUpdateQty, List.map_cons, hid, if_false, Bool.false_eq_true,
          List.filter_cons]
        simpa [handleUpdateQty, hpt, hid] using ihr
  refine ⟨?_, hneg, ?_, ?_⟩
  · intro hq
    apply List.filter_eq_self.mpr
    intro it hit
    rcases List.mem_map.mp hit with ⟨x, hx, hxe⟩
    by_cases hid : (x.product.id == pid) = true
    · subst hxe
      simp only [hid, if_true]
      simpa using hq
    · subst hxe
      simp only [hid, Bool.false_eq_true, if_false]
      simpa using hpos x hx
  · intro hq
    rw [hneg hq]
    apply itemsFor_eq_nil
    intro it hit
    have := List.of_mem_filter hit
    simpa using this
  · intro hnone
    have hmap : cart.map
        (fun it => if it.product.id == pid then { it with quantity := q } else it) = cart := by
      have hm : cart.map
          (fun it => if it.product.id == pid then { it with quantity := q } else it) =
          cart.map id := by
        apply List.map_congr_left
        intro it hit
        have hne : ¬((it.product.id == pid) = true) := by simpa using hnone it hit
        simp [hne]
      simpa using hm
    simp only [handleUpdateQty, hmap]
    apply List.filter_eq_self.mpr
    intro it hit
    simpa using hpos it hit

/-- Witness for C6 on a one-item cart: updating its quantity to zero empties
the cart, and updating an absent identifier changes nothing. -/
theorem claim_C6_witness :
    handleUpdateQty [{ product := demoProduct "w" "W" 5, quantity := 2 }] "w" 0 = [] ∧
    handleUpdateQty [{ product := demoProduct "w" "W" 5, quantity := 2 }] "x" 7 =
      [{ product := demoProduct "w" "W" 5, quantity := 2 }] := by
  have hpos : ∀ it ∈ [({ product := demoProduct "w" "W" 5, quantity := 2 } : CartItem)],
      (0 : Int) < it.quantity := by
    intro it hit
    rw [List.mem_singleton] at hit
    subst hit
    norm_num
  have h1 := (claim_C6 _ "w" 0 hpos).2.1 (by norm_num)
  have h2 := (claim_C6 _ "x" 7 hpos).2.2.2 (by
    intro it hit
    rw [List.mem_singleton] at hit
    subst hit
    simp [demoProduct])
  exact ⟨by rw [h1]; rfl, h2⟩

theorem cartIds_handleUpdateQty_sublist (c : List CartItem) (pid : String) (q : Int) :
    List.Sublist (cartIds (handleUpdateQty c pid q)) (cartIds c) := by
  have h1 : List.Sublist (handleUpdateQty c pid q)
      (c.map (fun it => if it.product.id == pid then { it with quantity := q } else it)) :=
    List.filter_sublist _
  have h2 := h1.map (fun it : CartItem => it.product.id)
  rw [List.map_map] at h2
  have hc : ((fun it : CartItem => it.product.id) ∘
      (fun it => if it.product.id == pid then { it with quantity := q } else it)) =
      (fun it : CartItem => it.product.id) := by
    funext it
    by_cases hid : (it.product.id == pid) = true
    · simp [Function.comp, hid]
    · simp [Function.comp, hid]
  rw [hc] at h2
  exact h2

theorem cartIds_handleRemove_sublist (c : List CartItem) (pid : String) :
    List.Sublist (cartIds (handleRemove c pid)) (cartIds c) :=
  (List.filter_sublist c).map (fun it : CartItem => it.product.id)

/-- C2: every reachable cart state holds at most one item per product
identifier: the empty initial state has no duplicates, and the add, update,
remove and clear handlers all preserve distinctness of the identifier list.
Hydration re-installs a cart the component itself persisted, hence a state
already covered by this induction. -/
theorem claim_C2 (c : List CartItem) (h : Reachable c) : (cartIds c).Nodup := by
  induction h with
  | init => simp [cartIds]
  | add c p q hr ih =>
    by_cases hany : c.any (fun it => it.product.id == p.id) = true
    · simpa [handleAddToCart, hany, cartIds_addQtyToFirst] using ih
    · have hf : c.any (fun it => it.product.id == p.id) = false := by simpa using hany
      have hni : p.id ∉ cartIds c := by
        simp only [cartIds, List.mem_map]
        rintro ⟨it, hit, hide⟩
        have hx := List.any_eq_false.mp hf it hit
        simp [hide] at hx
      simp only [handleAddToCart, hf, Bool.false_eq_true, if_false, cartIds,
        List.map_append, List.map_cons, List.map_nil]
      refine List.Nodup.append ih (List.nodup_singleton _) ?_
      simp only [List.disjoint_singleton]
      simpa [cartIds] using hni
  | update c pid q hr ih =>
    exact List.Nodup.sublist (cartIds_handleUpdateQty_sublist c pid q) ih
  | remove c pid hr ih =>
    exact List.Nodup.sublist (cartIds_handleRemove_sublist c pid) ih
  | clear c hr ih =>
    simp [handleClearCart, cartIds]

/-- Witness for C2 at a concrete reachable cart. -/
theorem claim_C2_witness :
    (cartIds (handleAddToCart [] (demoProduct "w" "W" 5) 1)).Nodup :=
  claim_C2 _ (Reachable.add [] (demoProduct "w" "W" 5) 1 Reachable.init)

/-! Lemmas and claims about the product list deriver. -/

theorem mem_filteredProducts_matches (products : List Product) (search category : String)
    (p : Product) (hq : jsTrim search ≠ "")
    (hp : p ∈ filteredProducts products search category) :
    (strIncludes (jsToLower p.title) (jsToLower search)
      || strIncludes (jsToLower p.description) (jsToLower search)) = true := by
  simp only [filteredProducts, if_pos hq] at hp
  by_cases hc : category ≠ "All"
  · rw [if_pos hc] at hp
    exact (List.mem_filter.mp (List.mem_filter.mp hp).1).2
  · rw [if_neg hc] at hp
    exact (List.mem_filter.mp hp).2

/-- A stable sort leaves each class of elements with one common sort key in
its original relative order: filtering the sorted list by any predicate
whose holders are pairwise order-equivalent returns the same list as
filtering the input. -/
theorem filter_mergeSort_eq {α : Type} (le : α → α → Bool)
    (trans : ∀ a b c, le a b = true → le b c = true → le a c = true)
    (total : ∀ a b, (le a b || le b a) = true)
    (pr : α → Bool) (hpr : ∀ a b, pr a = true → pr b = true → le a b = true)
    (l : List α) :
    (l.mergeSort le).filter pr = l.filter pr := by
  have hpw : List.Pairwise (fun a b => le a b = true) (l.filter pr) :=
    List.pairwise_of_forall_mem_list
      (fun a ha b hb => hpr a b (List.of_mem_filter ha) (List.of_mem_filter hb))
  have hsub : (l.filter pr).Sublist (l.mergeSort le) :=
    List.sublist_mergeSort trans total hpw (List.filter_sublist l)
  have hsub2 : (l.filter pr).Sublist ((l.mergeSort le).filter pr) := by
    have h := List.Sublist.filter pr hsub
    rwa [List.filter_eq_self.mpr (fun a ha => List.of_mem_filter ha)] at h
  have hperm : ((l.mergeSort le).filter pr).Perm (l.filter pr) :=
    List.Perm.filter pr (List.mergeSort_perm l le)
  exact (List.Sublist.eq_of_length hsub2 hperm.length_eq.symm).symm

/-- C3: with a search string that is non-empty after trimming, every
product of the derived list has the lowercased search string as a substring
of its lowercased title or description, and a product matching in neither
field is excluded. -/
theorem claim_C3 (products : List Product) (search category : String) (key : SortKey)
    (p : Product) (hq : jsTrim search ≠ "") :
    (p ∈ visibleProducts products search category key →
      (strIncludes (jsToLower p.title) (jsToLower search)
        || strIncludes (jsToLower p.description) (jsToLower search)) = true) ∧
    ((strIncludes (jsToLower p.title) (jsToLower search)
        || strIncludes (jsToLower p.description) (jsToLower search)) = false →
      p ∉ visibleProducts products search category key) := by
  have hmem : p ∈ visibleProducts products search category key →
      p ∈ filteredProducts products search category := by
    intro hp
    cases key <;> simpa [visibleProducts, List.mem_mergeSort] using hp
  refine ⟨fun hp => mem_filteredProducts_matches products search category p hq (hmem hp), ?_⟩
  intro hfalse hp
  have := mem_filteredProducts_matches products search category p hq (hmem hp)
  rw [hfalse] at this
  exact Bool.false_ne_true this

/-- Witness for C3 on a one-product catalog and the search text mug. -/
theorem claim_C3_witness :
    (demoProduct "m" "Ceramic Coffee Mug" 12.5 ∈
        visibleProducts [demoProduct "m" "Ceramic Coffee Mug" 12.5] "mug" "All"
          SortKey.featured →
      (strIncludes (jsToLower (demoProduct "m" "Ceramic Coffee Mug" 12.5).title)
          (jsToLower "mug")
        || strIncludes (jsToLower (demoProduct "m" "Ceramic Coffee Mug" 12.5).description)
          (jsToLower "mug")) = true) ∧
    ((strIncludes (jsToLower (demoProduct "m" "Ceramic Coffee Mug" 12.5).title)
          (jsToLower "mug")
        || strIncludes (jsToLower (demoProduct "m" "Ceramic Coffee Mug" 12.5).description)
          (jsToLower "mug")) = false →
      demoProduct "m" "Ceramic Coffee Mug" 12.5 ∉
        visibleProducts [demoProduct "m" "Ceramic Coffee Mug" 12.5] "mug" "All"
          SortKey.featured) :=
  claim_C3 [demoProduct "m" "Ceramic Coffee Mug" 12.5] "mug" "All" SortKey.featured
    (demoProduct "m" "Ceramic Coffee Mug" 12.5) (by decide)

/-- C4: under the price-ascending key the derived list has non-decreasing
prices, under price-descending non-increasing prices, under
rating-descending non-increasing rating rates (a missing rating counting
as rate zero); and for each sort key, the products sharing one value of
that key appear exactly in their filtered, pre-sort order. -/
theorem claim_C4 (products : List Product) (search category : String) :
    ((visibleProducts products search category SortKey.priceAsc).Pairwise
      (fun a b => a.price ≤ b.price)) ∧
    ((visibleProducts products search category SortKey.priceDesc).Pairwise
      (fun a b => b.price ≤ a.price)) ∧
    ((visibleProducts products search category SortKey.rating).Pairwise
      (fun a b => ratingRate b ≤ ratingRate a)) ∧
    (∀ v : ℚ, (visibleProducts products search category SortKey.priceAsc).filter
        (fun p => decide (p.price = v)) =
      (filteredProducts products search category).filter (fun p => decide (p.price = v))) ∧
    (∀ v : ℚ, (visibleProducts products search category SortKey.priceDesc).filter
        (fun p => decide (p.price = v)) =
      (filteredProducts products search category).filter (fun p => decide (p.price = v))) ∧
    (∀ v : ℚ, (visibleProducts products search category SortKey.rating).filter
        (fun p => decide (ratingRate p = v)) =
      (filteredProducts products search category).filter
        (fun p => decide (ratingRate p = v))) := by
  have transAsc : ∀ a b c : Product, decide (a.price ≤ b.price) = true →
      decide (b.price ≤ c.price) = true → decide (a.price ≤ c.price) = true := by
    intro a b c hab hbc
    simp only [decide_eq_true_eq] at *
    exact le_trans hab hbc
  have totalAsc : ∀ a b : Product,
      (decide (a.price ≤ b.price) || decide (b.price ≤ a.price)) = true := by
    intro a b
    simpa using le_total a.price b.price
  have transDesc : ∀ a b c : Product, decide (b.price ≤ a.price) = true →
      decide (c.price ≤ b.price) = true → decide (c.price ≤ a.price) = true := by
    intro a b c hab hbc
    simp only [decide_eq_true_eq] at *
    exact le_trans hbc hab
  have totalDesc : ∀ a b : Product,
      (decide (b.price ≤ a.price) || decide (a.price ≤ b.price)) = true := by
    intro a b
    simpa using le_total b.price a.price
  have transRat : ∀ a b c : Product, decide (ratingRate b ≤ ratingRate a) = true →
      decide (ratingRate c ≤ ratingRate b) = true →
      decide (ratingRate c ≤ ratingRate a) = true := by
    intro a b c hab hbc
    simp only [decide_eq_true_eq] at *
    exact le_trans hbc hab
  have totalRat : ∀ a b : Product,
      (decide (ratingRate b ≤ ratingRate a) || decide (ratingRate a ≤ ratingRate b)) = true := by
    intro a b
    simpa using le_total (ratingRate b) (ratingRate a)
  refine ⟨?_, ?_, ?_, ?_, ?_, ?_⟩
  · exact (List.sorted_mergeSort transAsc totalAsc _).imp (by simp)
  · exact (List.sorted_mergeSort transDesc totalDesc _).imp (by simp)
  · exact (List.sorted_mergeSort transRat totalRat _).imp (by simp)
  · intro v
    apply filter_mergeSort_eq _ transAsc totalAsc
    intro a b ha hb
    simp only [decide_eq_true_eq] at *
    rw [ha, hb]
  · intro v
    apply filter_mergeSort_eq _ transDesc totalDesc
    intro a b ha hb
    simp only [decide_eq_true_eq] at *
    rw [ha, hb]
  · intro v
    apply filter_mergeSort_eq _ transRat totalRat
    intro a b ha hb
    simp only [decide_eq_true_eq] at *
    rw [ha, hb]

/-- C7: with the empty search string, the All category and the featured
sort key, the deriver returns the catalog itself in its original order;
being a pure function on an immutable list, it never mutates the
catalog. -/
theorem claim_C7 (C : List Product) :
    visibleProducts C "" "All" SortKey.featured = C := by
  simp [visibleProducts, filteredProducts, jsTrim]

/-- C10: for a search string that is non-empty after trimming, the deriver
filters by the untrimmed lowercased search string, so a query carrying
leading or trailing whitespace matches only products whose lowercased
title or description contains that whitespace-including substring. -/
theorem claim_C10 (products : List Product) (search : String) (hq : jsTrim search ≠ "") :
    visibleProducts products search "All" SortKey.featured =
      products.filter (fun p => strIncludes (jsToLower p.title) (jsToLower search)
        || strIncludes (jsToLower p.description) (jsToLower search)) := by
  simp [visibleProducts, filteredProducts, hq]

/-- Witness for C10: the query consisting of mug followed by a space is
filtered with its trailing space kept, and on the sample catalog it
matches nothing, while the trimmed query would match the mug product. -/
theorem claim_C10_witness :
    (visibleProducts SAMPLE_PRODUCTS "mug " "All" SortKey.featured =
      SAMPLE_PRODUCTS.filter (fun p => strIncludes (jsToLower p.title) (jsToLower "mug ")
        || strIncludes (jsToLower p.description) (jsToLower "mug "))) ∧
    visibleProducts SAMPLE_PRODUCTS "mug " "All" SortKey.featured = [] := by
  refine ⟨claim_C10 SAMPLE_PRODUCTS "mug " (by decide), ?_⟩
  decide

/-! Lemmas and claims about the catalog fetch and the persistence effects. -/

theorem coerceRecord_ok (fresh : String) (p : Json) (h : p ≠ Json.null) :
    ∃ prod, coerceRecord fresh p = Except.ok prod := by
  cases p with
  | null => exact absurd rfl h
  | bool b => exact ⟨_, rfl⟩
  | num q => exact ⟨_, rfl⟩
  | str s => exact ⟨_, rfl⟩
  | arr elems => exact ⟨_, rfl⟩
  | obj fields => exact ⟨_, rfl⟩

theorem coerceAll_ok (fresh : ℕ → String) (records : List Json) :
    ∀ i : ℕ, (∀ r ∈ records, r ≠ Json.null) →
    ∃ ps, coerceAll fresh i records = Except.ok ps := by
  induction records with
  | nil => exact fun i _ => ⟨[], rfl⟩
  | cons r rest ih =>
    intro i h
    obtain ⟨prod, hp⟩ := coerceRecord_ok (fresh i) r (h r (by simp))
    obtain ⟨ps, hps⟩ := ih (i + 1) (fun x hx => h x (by simp [hx]))
    exact ⟨prod :: ps, by simp [coerceAll, hp, hps]⟩

/-- C8 counterexample: the per-record coercion is not total on all
JSON-shaped array elements: a null element (valid JSON) makes the property
reads throw, so the whole mapping aborts and the fetch falls back to the
sample catalog instead of producing a coerced record. -/
theorem claim_C8_counterexample :
    coerceRecord "f0" Json.null = Except.error () ∧
    fetchProductsFromApi (fun _ => "f0")
      (FetchOutcome.response true (Except.ok (Json.arr [Json.null]))) = SAMPLE_PRODUCTS :=
  ⟨rfl, rfl⟩

/-- C8 amended: fetchProductsFromApi never throws; network and HTTP
failures, unparsable bodies and non-array bodies all yield the fixed
fallback catalog of exactly 4 products; the per-record coercion is total
on every object record, with a missing identifier replaced by the
generated fallback identifier, a missing title by the placeholder string,
a missing price by zero and a missing category by Uncategorized; and an
array whose elements are all non-null is coerced record by record, while
an array containing null triggers the fallback catalog because the record
coercion throws on it. -/
theorem claim_C8 (fresh : ℕ → String) (body : Json)
    (hbody : ∀ xs, body ≠ Json.arr xs) :
    fetchProductsFromApi fresh FetchOutcome.networkError = SAMPLE_PRODUCTS ∧
    (∀ b, fetchProductsFromApi fresh (FetchOutcome.response false b) = SAMPLE_PRODUCTS) ∧
    fetchProductsFromApi fresh (FetchOutcome.response true (Except.error ())) =
      SAMPLE_PRODUCTS ∧
    fetchProductsFromApi fresh (FetchOutcome.response true (Except.ok body)) =
      SAMPLE_PRODUCTS ∧
    SAMPLE_PRODUCTS.length = 4 ∧
    (∀ fields, ∃ prod, coerceRecord (fresh 0) (Json.obj fields) = Except.ok prod) ∧
    coerceRecord (fresh 0) (Json.obj []) = Except.ok
      { id := fresh 0, title := "Untitled product", description := "", price := 0,
        image := some "", category := some "Uncategorized", rating := none } ∧
    (∀ records : List Json, (∀ r ∈ records, r ≠ Json.null) →
      ∃ ps, coerceAll fresh 0 records = Except.ok ps ∧
        fetchProductsFromApi fresh
          (FetchOutcome.response true (Except.ok (Json.arr records))) = ps) := by
  refine ⟨rfl, fun b => rfl, rfl, ?_, rfl, ?_, rfl, ?_⟩
  · cases body with
    | arr xs => exact absurd rfl (hbody xs)
    | null => rfl
    | bool b => rfl
    | num q => rfl
    | str s => rfl
    | obj fields => rfl
  · intro fields
    exact ⟨_, rfl⟩
  · intro records h
    obtain ⟨ps, hps⟩ := coerceAll_ok fresh records 0 h
    exact ⟨ps, hps, by simp [fetchProductsFromApi, hps]⟩

/-- Witness for C8 at a concrete non-array body and the empty object
record. -/
theorem claim_C8_witness :
    fetchProductsFromApi (fun _ => "gen")
      (FetchOutcome.response true (Except.ok (Json.str "nope"))) = SAMPLE_PRODUCTS ∧
    coerceRecord "gen" (Json.obj []) = Except.ok
      { id := "gen", title := "Untitled product", description := "", price := 0,
        image := some "", category := some "Uncategorized", rating := none } := by
  have h := claim_C8 (fun _ => "gen") (Json.str "nope") (fun xs hx => Json.noConfusion hx)
  exact ⟨h.2.2.2.1, h.2.2.2.2.2.2.1⟩

/-- C9: cart persistence degrades silently: hydration yields the empty cart
when the storage read throws, when the slot is absent, and when the
content fails to parse; and the persistence effect after a mutation never
changes the in-memory cart, whether or not the storage write succeeds. -/
theorem claim_C9 (parse : String → Except Unit (List CartItem)) (raw : String)
    (hraw : parse raw = Except.error ()) :
    hydrateCart (Except.ok none) parse = [] ∧
    hydrateCart (Except.error ()) parse = [] ∧
    hydrateCart (Except.ok (some raw)) parse = [] ∧
    (∀ (writeOk : Bool) (s : CartSession), (persistAfterMutation writeOk s).cart = s.cart) := by
  refine ⟨rfl, rfl, ?_, fun writeOk s => rfl⟩
  by_cases he : raw = ""
  · simp [hydrateCart, he]
  · simp [hydrateCart, he, hraw]

/-- Witness for C9 at a parse function that rejects every slot content. -/
theorem claim_C9_witness :
    hydrateCart (Except.ok none) (fun _ => Except.error ()) = [] ∧
    hydrateCart (Except.error ()) (fun _ => Except.error ()) = [] ∧
    hydrateCart (Except.ok (some "corrupt")) (fun _ => Except.error ()) = [] ∧
    (∀ (writeOk : Bool) (s : CartSession), (persistAfterMutation writeOk s).cart = s.cart) :=
  claim_C9 (fun _ => Except.error ()) "corrupt" rfl

end Storefront
